import Mathlib

/-!
Verification of the directory-synchronization engine of `backup_script.py`.

The engine (`backup_files`) walks a source tree, mirrors its directory
structure into a freshly created snapshot directory, and for every regular
file decides copy vs. skip, counting copied / skipped / errored files and
writing a human-readable record of each decision both to the console and to
an audit log file.  `main` validates the source and destination paths,
creates the snapshot directory and log file, runs the engine, and prints a
summary.

The embedding below models the filesystem state that the script reads and
writes: the destination snapshot is an association list from the path
relative to the snapshot root to the file stored there (content bytes plus
modification time, the data `shutil.copy2` transfers), and the source tree
is the list of directories that `os.walk` yields, each with its regular
files.  Fallible operating-system calls (`filecmp.cmp`, `os.path.getmtime`,
`shutil.copy2`, `log_file.write`, `os.makedirs`) are given fault flags of
type `Option String`: `none` means the call succeeds, `some e` means it
raises an `OSError` carrying message `e`.  Raising is modelled with
`Except`: `Except.error st` is an exception propagating out of
`backup_files` with the partial state `st` at that moment, exactly as the
Python exception unwinds the walk.
-/

namespace BackupScript

/-- File content as a byte sequence. -/
abbrev Bytes := List Nat

/-- A file stored on the destination filesystem: content plus modification
time (`shutil.copy2` copies both). -/
structure DiskFile where
  content : Bytes
  mtime : Int
deriving DecidableEq

/-- The destination snapshot filesystem: an association list from the
normalized path relative to the snapshot root to the stored file.  A new
write is placed in front and shadows any older entry for the same path. -/
abbrev FS := List (String × DiskFile)

/-- `os.path.exists` / reading the destination file: first (most recent)
entry for the path wins. -/
def FS.lookup : FS → String → Option DiskFile
  | [], _ => none
  | (q, g) :: rest, p => if q = p then some g else FS.lookup rest p

/-- `shutil.copy2 source dest`: store content and mtime at the destination
path, shadowing any previous file there. -/
def FS.write (fs : FS) (p : String) (g : DiskFile) : FS := (p, g) :: fs

/-- One regular file found under the source tree during the walk.  The
`Option String` fields are fault flags for the fallible calls made while
handling this file: `filecmp.cmp` (line 52), `os.path.getmtime`
(lines 65-66), `shutil.copy2` (lines 60, 71, 83), the `log_file.write` of
the decision record (lines 55, 61, 72, 77, 84), and the `log_file.write`
inside the `except` handler (line 89). -/
structure SrcFile where
  name : String
  content : Bytes
  mtime : Int
  cmpRaises : Option String := none
  mtimeRaises : Option String := none
  copyRaises : Option String := none
  recRaises : Option String := none
  errRaises : Option String := none
deriving DecidableEq

/-- One directory yielded by `os.walk(source)`: its path relative to the
source root (`"."` for the root itself, as `os.path.relpath` computes it),
a fault flag for the `os.makedirs(dest_dir, exist_ok=True)` call at
line 41, and the regular files directly inside it. -/
structure SrcDir where
  relPath : String
  mkdirRaises : Option String := none
  files : List SrcFile
deriving DecidableEq

/-- The per-file decision kinds of the spec, in bijection with the record
messages the script prints and logs. -/
inductive Decision where
  | copyNew
  | copyModified
  | copyNewer
  | skipIdentical
  | skipUpToDate
  | error
deriving DecidableEq

/-- The mutable state of one run of `backup_files`: the destination
filesystem, everything printed to the console so far, everything written to
the audit log so far, the per-file decisions counted so far (each paired
with its record message), and the four counters of lines 27-30. -/
structure SyncState where
  fs : FS
  console : List String := []
  log : List String := []
  decisions : List (String × Decision) := []
  copied : Nat := 0
  skipped : Nat := 0
  errors : Nat := 0
  total : Nat := 0
deriving DecidableEq

/-- `os.path.join(rel, name)` normalized against the snapshot root:
`os.walk` reports the root directory as relative path `"."`, and the
kernel resolves `dest/./f` and `dest/f` to the same file. -/
def joinRel (rel name : String) : String :=
  if rel = "." then name else rel ++ "/" ++ name

/-- The `source_file` string used in every record message:
`os.path.join(root, filename)` where `root` is the walk root of the
directory (`source` itself for relative path `"."`). -/
def srcPath (source rel name : String) : String :=
  (if rel = "." then source else source ++ "/" ++ rel) ++ "/" ++ name

/-- Record message of line 53. -/
def msgSkipIdentical (p : String) : String := "SKIPPED (Identical): " ++ p

/-- Record message of line 58. -/
def msgCopyModified (p : String) : String :=
  "COPYING (Full Backup - Modified): " ++ p

/-- Record message of line 69. -/
def msgCopyNewer (p : String) : String := "COPYING (Incremental - Newer): " ++ p

/-- Record message of line 75. -/
def msgSkipUpToDate (p : String) : String :=
  "SKIPPED (Incremental - Already up-to-date): " ++ p

/-- Record message of line 81. -/
def msgCopyNew (p : String) : String := "COPYING (New): " ++ p

/-- Record message of line 87, with `e` the text of the caught exception. -/
def msgError (p e : String) : String := "ERROR backing up " ++ p ++ ": " ++ e

/-- The `except Exception` handler of lines 86-90: print the error record,
write it to the log — a failure of this second write is not caught and
propagates out of `backup_files` — then count the file in `errors`. -/
def handleErr (sp : String) (f : SrcFile) (e : String) (st : SyncState) :
    Except SyncState SyncState :=
  let m := msgError sp e
  let st1 := { st with console := st.console ++ [m] }
  match f.errRaises with
  | some _ => Except.error st1
  | none =>
      Except.ok { st1 with
        log := st1.log ++ [m]
        decisions := st1.decisions ++ [(m, Decision.error)]
        errors := st1.errors + 1 }

/-- Lines 47-90: the `try` block handling one file.  `destKey` is the
destination path relative to the snapshot root, `sp` the `source_file`
string.  Every step mutates the state in the order the Python statements
run, so that a raise in the middle keeps the side effects already done
(e.g. the `COPYING` line printed before `shutil.copy2` raises). -/
def processFile (is_full_backup : Bool) (destKey sp : String) (f : SrcFile)
    (st : SyncState) : Except SyncState SyncState :=
  match FS.lookup st.fs destKey with
  | some df =>
      if is_full_backup then
        -- line 52: filecmp.cmp(source_file, dest_file, shallow=False)
        match f.cmpRaises with
        | some e => handleErr sp f e st
        | none =>
            if f.content = df.content then
              -- lines 53-56
              let m := msgSkipIdentical sp
              let st1 := { st with console := st.console ++ [m] }
              match f.recRaises with
              | some e => handleErr sp f e st1
              | none =>
                  Except.ok { st1 with
                    log := st1.log ++ [m]
                    decisions := st1.decisions ++ [(m, Decision.skipIdentical)]
                    skipped := st1.skipped + 1 }
            else
              -- lines 58-62: print, copy, log write, count
              let m := msgCopyModified sp
              let st1 := { st with console := st.console ++ [m] }
              match f.copyRaises with
              | some e => handleErr sp f e st1
              | none =>
                  let st2 := { st1 with
                    fs := FS.write st1.fs destKey ⟨f.content, f.mtime⟩ }
                  match f.recRaises with
                  | some e => handleErr sp f e st2
                  | none =>
                      Except.ok { st2 with
                        log := st2.log ++ [m]
                        decisions :=
                          st2.decisions ++ [(m, Decision.copyModified)]
                        copied := st2.copied + 1 }
      else
        -- lines 65-66: os.path.getmtime on source and destination
        match f.mtimeRaises with
        | some e => handleErr sp f e st
        | none =>
            if df.mtime < f.mtime then
              -- lines 69-73: print, copy, log write, count
              let m := msgCopyNewer sp
              let st1 := { st with console := st.console ++ [m] }
              match f.copyRaises with
              | some e => handleErr sp f e st1
              | none =>
                  let st2 := { st1 with
                    fs := FS.write st1.fs destKey ⟨f.content, f.mtime⟩ }
                  match f.recRaises with
                  | some e => handleErr sp f e st2
                  | none =>
                      Except.ok { st2 with
                        log := st2.log ++ [m]
                        decisions := st2.decisions ++ [(m, Decision.copyNewer)]
                        copied := st2.copied + 1 }
            else
              -- lines 75-78
              let m := msgSkipUpToDate sp
              let st1 := { st with console := st.console ++ [m] }
              match f.recRaises with
              | some e => handleErr sp f e st1
              | none =>
                  Except.ok { st1 with
                    log := st1.log ++ [m]
                    decisions := st1.decisions ++ [(m, Decision.skipUpToDate)]
                    skipped := st1.skipped + 1 }
  | none =>
      -- lines 81-85: print, copy, log write, count
      let m := msgCopyNew sp
      let st1 := { st with console := st.console ++ [m] }
      match f.copyRaises with
      | some e => handleErr sp f e st1
      | none =>
          let st2 := { st1 with
            fs := FS.write st1.fs destKey ⟨f.content, f.mtime⟩ }
          match f.recRaises with
          | some e => handleErr sp f e st2
          | none =>
              Except.ok { st2 with
                log := st2.log ++ [m]
                decisions := st2.decisions ++ [(m, Decision.copyNew)]
                copied := st2.copied + 1 }

/-- The inner `for filename in files` loop of lines 43-90: an uncaught
exception in one file (only possible from the handler's own log write)
stops the loop and propagates. -/
def processFiles (is_full_backup : Bool) (source rel : String) :
    List SrcFile → SyncState → Except SyncState SyncState
  | [], st => Except.ok st
  | f :: rest, st =>
      match processFile is_full_backup (joinRel rel f.name)
          (srcPath source rel f.name) f st with
      | Except.ok st1 => processFiles is_full_backup source rel rest st1
      | Except.error st1 => Except.error st1

/-- Lines 33-41 for one directory yielded by the walk: `total_files` grows
by the number of files before `os.makedirs(dest_dir, exist_ok=True)` runs;
the `makedirs` call sits outside the per-file `try`, so its failure
propagates out of the walk. -/
def processDir (is_full_backup : Bool) (source : String) (d : SrcDir)
    (st : SyncState) : Except SyncState SyncState :=
  let st1 := { st with total := st.total + d.files.length }
  match d.mkdirRaises with
  | some _ => Except.error st1
  | none => processFiles is_full_backup source d.relPath d.files st1

/-- The outer `for root, dirs, files in os.walk(source)` loop. -/
def processDirs (is_full_backup : Bool) (source : String) :
    List SrcDir → SyncState → Except SyncState SyncState
  | [], st => Except.ok st
  | d :: rest, st =>
      match processDir is_full_backup source d st with
      | Except.ok st1 => processDirs is_full_backup source rest st1
      | Except.error st1 => Except.error st1

/-- Lines 23-92, `backup_files(source, destination, is_full_backup,
log_file)`: walk the source directories against an initial destination
filesystem `fs0` (keyed relative to the snapshot root) and return the
final state — counters, console, log, decisions — or the partial state at
an uncaught exception. -/
def backup_files (source : String) (is_full_backup : Bool)
    (dirs : List SrcDir) (fs0 : FS) : Except SyncState SyncState :=
  processDirs is_full_backup source dirs { fs := fs0 }

/-- The message of the first exception the `try` block of lines 47-85
raises for this file against this destination filesystem, `none` when the
block completes without raising.  It mirrors the order in which the
block's fallible calls run in each branch: existence check, then
comparison (`filecmp.cmp` / `os.path.getmtime`), then `shutil.copy2`,
then the record `log_file.write`. -/
def tryFault (is_full_backup : Bool) (destKey : String) (f : SrcFile)
    (fs : FS) : Option String :=
  match FS.lookup fs destKey with
  | some df =>
      if is_full_backup then
        match f.cmpRaises with
        | some e => some e
        | none =>
            if f.content = df.content then f.recRaises
            else
              match f.copyRaises with
              | some e => some e
              | none => f.recRaises
      else
        match f.mtimeRaises with
        | some e => some e
        | none =>
            if df.mtime < f.mtime then
              match f.copyRaises with
              | some e => some e
              | none => f.recRaises
            else f.recRaises
  | none =>
      match f.copyRaises with
      | some e => some e
      | none => f.recRaises

/-- The setup conditions `main` checks before the walk: `os.path.isdir` on
source (line 103) and destination (line 106), success of
`create_backup_folder` (lines 7-21, 111), success of opening the log file
and writing its header (lines 117-123), and the `--full` flag. -/
structure Setup where
  sourceIsDir : Bool
  destIsDir : Bool
  snapshotOk : Bool
  logOpenOk : Bool
  full : Bool
deriving DecidableEq

/-- How one invocation of `main` (lines 94-143) can finish.  The four
`setupFail` outcomes are the early `return`s of lines 105, 108, 113 and
the `except IOError` around the log-file `open`; `abortedRun` is an
exception unwinding out of `backup_files` mid-walk — every operating-system
error the walk can raise is an `OSError`, which Python 3 aliases to
`IOError`, so line 141 catches it and no summary is printed; `completed`
is the normal path printing the summary of lines 134-139. -/
inductive MainOutcome where
  | setupFailSource
  | setupFailDest
  | setupFailSnapshot
  | setupFailLogOpen
  | abortedRun (st : SyncState)
  | completed (st : SyncState)
deriving DecidableEq

/-- Lines 94-143: validate paths, create the snapshot, open the log file
`backup.log` inside the snapshot and write its header (lines 116-123),
then run `backup_files` with that same snapshot directory as destination
(line 125).  At walk start the snapshot is therefore not empty: it holds
exactly one file, `backup.log` at its root; `logFile` is that file's
content and mtime as the walk finds them.  (The embedding keeps the log
file's on-disk bytes and mtime fixed during the walk; only its existence
and mtime are read by the decision procedure, and no theorem below rests
on the bytes of the log file the run itself is appending to.) -/
def runMain (s : Setup) (source : String) (logFile : DiskFile)
    (dirs : List SrcDir) : MainOutcome :=
  if s.sourceIsDir = false then MainOutcome.setupFailSource
  else if s.destIsDir = false then MainOutcome.setupFailDest
  else if s.snapshotOk = false then MainOutcome.setupFailSnapshot
  else if s.logOpenOk = false then MainOutcome.setupFailLogOpen
  else
    match backup_files source s.full dirs [("backup.log", logFile)] with
    | Except.error st => MainOutcome.abortedRun st
    | Except.ok st => MainOutcome.completed st

/-- The process exit status for each way `main` can finish.  `main` never
calls `sys.exit` and ends every path with a plain `return` (lines 105,
108, 113, the fall-through after line 139, and the `except IOError`
handler of lines 141-142, which catches every `OSError` the modelled
operations raise), so the interpreter always exits with status 0. -/
def exitStatus : MainOutcome → Nat
  | _ => 0

/-- Whether the outcome is one of the four setup failures of the spec's
error taxonomy (bad source, bad destination, snapshot creation failure,
log open failure). -/
def MainOutcome.isSetupFail : MainOutcome → Bool
  | MainOutcome.setupFailSource => true
  | MainOutcome.setupFailDest => true
  | MainOutcome.setupFailSnapshot => true
  | MainOutcome.setupFailLogOpen => true
  | _ => false

/-- Number of files yielded by the traversal of the source tree: the sum
of `len(files)` over the directories `os.walk` yields (line 34). -/
def countFiles : List SrcDir → Nat
  | [] => 0
  | d :: rest => d.files.length + countFiles rest

/-- Whether a step of the engine returned normally (`Except.ok`) rather
than letting an exception propagate. -/
def resultOk : Except SyncState SyncState → Bool
  | Except.ok _ => true
  | Except.error _ => false

/-- Dual-sink property of a state: every counted decision's record message
has been both printed to the console and written to the audit log. -/
def DualSink (st : SyncState) : Prop :=
  ∀ md ∈ st.decisions, md.1 ∈ st.console ∧ md.1 ∈ st.log

/-- Source tree used by the witnesses of the whole-run claims: one root
directory with a file whose copy fails and a file that copies cleanly. -/
def w4dirs : List SrcDir :=
  [{ relPath := "."
     files := [{ name := "f.txt", content := [1], mtime := 2,
                 copyRaises := some "denied" },
               { name := "g.txt", content := [3], mtime := 4 }] }]

/-- Final state of running `backup_files "s" true w4dirs []`. -/
def w4st : SyncState :=
  { fs := [("g.txt", ⟨[3], 4⟩)]
    console := [msgCopyNew "s/f.txt", msgError "s/f.txt" "denied",
                msgCopyNew "s/g.txt"]
    log := [msgError "s/f.txt" "denied", msgCopyNew "s/g.txt"]
    decisions := [(msgError "s/f.txt" "denied", Decision.error),
                  (msgCopyNew "s/g.txt", Decision.copyNew)]
    copied := 1
    skipped := 0
    errors := 1
    total := 2 }

/-- Destination paths (relative to the snapshot root) of the files of one
walked directory. -/
def fileKeys (rel : String) (fs : List SrcFile) : List String :=
  fs.map fun g => joinRel rel g.name

/-- Destination paths of every file the traversal yields.  A real
`os.walk` never yields the same directory twice nor the same filename
twice within a directory, so for a real source tree this list has no
duplicates. -/
def allKeys : List SrcDir → List String
  | [] => []
  | d :: rest => fileKeys d.relPath d.files ++ allKeys rest

/-- Whether every counted decision of the state is COPY_NEW or ERROR. -/
def onlyNewOrError (st : SyncState) : Bool :=
  st.decisions.all fun md =>
    decide (md.2 = Decision.copyNew ∨ md.2 = Decision.error)

/-- A setup in which every check of `main` passes, FULL mode. -/
def wSetup : Setup :=
  { sourceIsDir := true, destIsDir := true, snapshotOk := true,
    logOpenOk := true, full := true }

/-- Witness file whose `shutil.copy2` raises a permission error. -/
def w5file : SrcFile :=
  { name := "x.txt", content := [1], mtime := 0, copyRaises := some "denied" }

/-- Witness file handled without any exception. -/
def w5clean : SrcFile := { name := "y.txt", content := [2], mtime := 0 }

/-- Witness tree mixing a failing and a clean file, with working handler
log writes and directory creations. -/
def w5dirs : List SrcDir := [{ relPath := ".", files := [w5file, w5clean] }]

/-- The audit log file as the walk first sees it: header bytes already
written, mtime the moment the run created it. -/
def wLog : DiskFile := ⟨[66, 76], 100⟩

/-- Witness file where `shutil.copy2` raises and the handler's own log
write (line 89) raises too. -/
def w5file2 : SrcFile :=
  { name := "x.txt", content := [1], mtime := 0,
    copyRaises := some "denied", errRaises := some "disk full" }

/-- Witness tree whose first file suffers the double failure of
`w5file2`, followed by a clean file the aborted walk never reaches. -/
def w5dirs2 : List SrcDir := [{ relPath := ".", files := [w5file2, w5clean] }]

/-- State after `processFile` handles `w5file` (failing copy, working
handler write) against an empty destination. -/
def w5st : SyncState :=
  { fs := []
    console := [msgCopyNew "s/x.txt", msgError "s/x.txt" "denied"]
    log := [msgError "s/x.txt" "denied"]
    decisions := [(msgError "s/x.txt" "denied", Decision.error)]
    copied := 0
    skipped := 0
    errors := 1
    total := 0 }

/-- An all-checks-pass setup running in INCREMENTAL mode. -/
def w9setup : Setup :=
  { sourceIsDir := true, destIsDir := true, snapshotOk := true,
    logOpenOk := true, full := false }

/-- Source tree containing a root-level file named `backup.log`, older
than the run that backs it up. -/
def w9dirs : List SrcDir :=
  [{ relPath := "."
     files := [{ name := "backup.log", content := [5], mtime := 3 }] }]

/-- Final state of the INCREMENTAL command-line run over `w9dirs`: the
source `backup.log` collides with the snapshot's own log file and is
skipped as up to date. -/
def w9st : SyncState :=
  { fs := [("backup.log", wLog)]
    console := [msgSkipUpToDate "s/backup.log"]
    log := [msgSkipUpToDate "s/backup.log"]
    decisions := [(msgSkipUpToDate "s/backup.log", Decision.skipUpToDate)]
    copied := 0
    skipped := 1
    errors := 0
    total := 1 }

/-- Final state of the FULL command-line run over `w4dirs` against the
snapshot seeded with its `backup.log`. -/
def w9ast : SyncState :=
  { fs := [("g.txt", ⟨[3], 4⟩), ("backup.log", wLog)]
    console := [msgCopyNew "s/f.txt", msgError "s/f.txt" "denied",
                msgCopyNew "s/g.txt"]
    log := [msgError "s/f.txt" "denied", msgCopyNew "s/g.txt"]
    decisions := [(msgError "s/f.txt" "denied", Decision.error),
                  (msgCopyNew "s/g.txt", Decision.copyNew)]
    copied := 1
    skipped := 0
    errors := 1
    total := 2 }

/-- Witness file whose per-file audit-record write raises while the
handler's own log write works. -/
def w7file : SrcFile :=
  { name := "a.txt", content := [1], mtime := 0,
    recRaises := some "disk full" }

/-- Witness tree around `w7file`. -/
def w7dirs : List SrcDir := [{ relPath := ".", files := [w7file] }]

/-- Final state of `backup_files "s" false w7dirs []`: the file was in
fact copied, but its failed record write was downgraded to a counted
ERROR decision and the run completed. -/
def w7st : SyncState :=
  { fs := [("a.txt", ⟨[1], 0⟩)]
    console := [msgCopyNew "s/a.txt", msgError "s/a.txt" "disk full"]
    log := [msgError "s/a.txt" "disk full"]
    decisions := [(msgError "s/a.txt" "disk full", Decision.error)]
    copied := 0
    skipped := 0
    errors := 1
    total := 1 }

/-- Witness file where both the record write and the handler's log write
raise. -/
def w7file2 : SrcFile :=
  { name := "a.txt", content := [1], mtime := 0,
    recRaises := some "disk full", errRaises := some "disk full" }

/-- A setup whose audit log file cannot be opened. -/
def wBadLogSetup : Setup :=
  { sourceIsDir := true, destIsDir := true, snapshotOk := true,
    logOpenOk := false, full := false }

/-- A setup with a missing source directory. -/
def wBadSourceSetup : Setup :=
  { sourceIsDir := false, destIsDir := true, snapshotOk := true,
    logOpenOk := true, full := false }

/-- Witness directory whose destination mirror cannot be created:
`os.makedirs(dest_dir, exist_ok=True)` raises. -/
def w10dir : SrcDir :=
  { relPath := "sub", mkdirRaises := some "denied",
    files := [{ name := "h.txt", content := [7], mtime := 1 }] }

/- ------------------------------------------------------------------ -/
/- Helper lemmas about the per-file step                               -/
/- ------------------------------------------------------------------ -/

theorem handleErr_ok_counts (sp e : String) (f : SrcFile) (st st' : SyncState)
    (h : handleErr sp f e st = Except.ok st') :
    st'.copied = st.copied ∧ st'.skipped = st.skipped ∧
      st'.errors = st.errors + 1 ∧ st'.total = st.total := by
  unfold handleErr at h
  cases hf : f.errRaises <;> rw [hf] at h
  · simp only [Except.ok.injEq] at h
    subst h
    simp
  · simp at h

/-- On a successful per-file step, exactly one of the three outcome
counters grows by one and `total` is untouched. -/
theorem processFile_ok_counts (b : Bool) (k sp : String) (f : SrcFile)
    (st st' : SyncState) (h : processFile b k sp f st = Except.ok st') :
    st'.copied + st'.skipped + st'.errors =
      st.copied + st.skipped + st.errors + 1 ∧ st'.total = st.total := by
  unfold processFile at h
  repeat' split at h
  all_goals
    first
      | (rcases handleErr_ok_counts _ _ _ _ _ h with ⟨h1, h2, h3, h4⟩
         simp [h1, h2, h3, h4]
         try omega)
      | (simp only [Except.ok.injEq] at h
         subst h
         simp
         try omega)

theorem handleErr_errNone_eq (sp e : String) (f : SrcFile) (st : SyncState)
    (he : f.errRaises = none) :
    handleErr sp f e st = Except.ok
      { st with
        console := st.console ++ [msgError sp e]
        log := st.log ++ [msgError sp e]
        decisions := st.decisions ++ [(msgError sp e, Decision.error)]
        errors := st.errors + 1 } := by
  simp [handleErr, he]

/-- With a working handler log write, no exception escapes the per-file
`try`: the walk always gets a next state. -/
theorem processFile_errNone_ok (b : Bool) (k sp : String) (f : SrcFile)
    (st : SyncState) (he : f.errRaises = none) :
    ∃ st', processFile b k sp f st = Except.ok st' := by
  unfold processFile
  repeat' split
  all_goals
    first
      | exact ⟨_, rfl⟩
      | (rw [handleErr_errNone_eq _ _ _ _ he]; exact ⟨_, rfl⟩)

theorem processFiles_errNone_ok (b : Bool) (src rel : String)
    (fs : List SrcFile) (st : SyncState)
    (he : ∀ g ∈ fs, g.errRaises = none) :
    ∃ st', processFiles b src rel fs st = Except.ok st' := by
  induction fs generalizing st with
  | nil => exact ⟨st, rfl⟩
  | cons f rest ih =>
      rcases processFile_errNone_ok b (joinRel rel f.name)
          (srcPath src rel f.name) f st (he f (by simp)) with ⟨st1, h1⟩
      rcases ih st1 (fun g hg => he g (by simp [hg])) with ⟨st2, h2⟩
      exact ⟨st2, by simp [processFiles, h1, h2]⟩

theorem processDirs_errNone_ok (b : Bool) (src : String)
    (dirs : List SrcDir) (st : SyncState)
    (hm : ∀ d ∈ dirs, d.mkdirRaises = none)
    (he : ∀ d ∈ dirs, ∀ g ∈ d.files, g.errRaises = none) :
    ∃ st', processDirs b src dirs st = Except.ok st' := by
  induction dirs generalizing st with
  | nil => exact ⟨st, rfl⟩
  | cons d rest ih =>
      rcases processFiles_errNone_ok b src d.relPath d.files
          { st with total := st.total + d.files.length }
          (he d (by simp)) with ⟨st1, h1⟩
      rcases ih st1 (fun x hx => hm x (by simp [hx]))
          (fun x hx => he x (by simp [hx])) with ⟨st2, h2⟩
      refine ⟨st2, ?_⟩
      simp [processDirs, processDir, hm d (by simp), h1, h2]

theorem handleErr_ok_eq (sp e : String) (f : SrcFile) (st st' : SyncState)
    (h : handleErr sp f e st = Except.ok st') :
    st' = { st with
      console := st.console ++ [msgError sp e]
      log := st.log ++ [msgError sp e]
      decisions := st.decisions ++ [(msgError sp e, Decision.error)]
      errors := st.errors + 1 } := by
  cases hf : f.errRaises
  · rw [handleErr_errNone_eq _ _ _ _ hf] at h
    simp only [Except.ok.injEq] at h
    exact h.symm
  · unfold handleErr at h
    rw [hf] at h
    simp at h

/-- When the `try` block raises (whichever of its calls fails) and the
handler's log write works, the per-file step completes having counted
exactly one ERROR decision for this file, touching neither `copied` nor
`skipped`. -/
theorem processFile_fault_counted (b : Bool) (k sp e : String)
    (f : SrcFile) (st st' : SyncState)
    (hf : tryFault b k f st.fs = some e)
    (h : processFile b k sp f st = Except.ok st') :
    st'.errors = st.errors + 1 ∧ st'.copied = st.copied ∧
      st'.skipped = st.skipped ∧
      st'.decisions = st.decisions ++ [(msgError sp e, Decision.error)] := by
  unfold processFile at h
  repeat' split at h
  all_goals
    first
      | (have he2 := handleErr_ok_eq _ _ _ _ _ h
         subst he2
         simp_all [tryFault])
      | simp_all [tryFault]

/-- When the `try` block raises and the handler's own log write (line 89)
also raises, the per-file step propagates the exception instead of
returning. -/
theorem processFile_fault_aborts (b : Bool) (k sp e e2 : String)
    (f : SrcFile) (st : SyncState)
    (hf : tryFault b k f st.fs = some e)
    (her : f.errRaises = some e2) :
    resultOk (processFile b k sp f st) = false := by
  unfold processFile
  repeat' split
  all_goals simp_all [tryFault, handleErr, resultOk]

theorem dual_ext (st : SyncState) (fs' : FS) (cx : List String)
    (hd : DualSink st) :
    DualSink { st with fs := fs', console := st.console ++ cx } := by
  intro md hmd
  rcases hd md hmd with ⟨h1, h2⟩
  exact ⟨List.mem_append_left _ h1, h2⟩

theorem dual_push (st : SyncState) (fs' : FS) (m : String) (d : Decision)
    (a b c t : Nat) (hd : DualSink st) :
    DualSink { fs := fs', console := st.console ++ [m],
               log := st.log ++ [m],
               decisions := st.decisions ++ [(m, d)],
               copied := a, skipped := b, errors := c, total := t } := by
  intro md hmd
  simp only [List.mem_append, List.mem_singleton] at hmd
  rcases hmd with hmd | hmd
  · rcases hd md hmd with ⟨h1, h2⟩
    exact ⟨List.mem_append_left _ h1, List.mem_append_left _ h2⟩
  · subst hmd
    exact ⟨List.mem_append_right _ (by simp),
      List.mem_append_right _ (by simp)⟩

theorem handleErr_ok_dual (sp e : String) (f : SrcFile) (st st' : SyncState)
    (h : handleErr sp f e st = Except.ok st') (hd : DualSink st) :
    DualSink st' := by
  rw [handleErr_ok_eq sp e f st st' h]
  exact dual_push st st.fs (msgError sp e) Decision.error st.copied st.skipped
    (st.errors + 1) st.total hd

/-- Every successful per-file step appends the record of its counted
decision to both the console and the log. -/
theorem processFile_ok_dual (b : Bool) (k sp : String) (f : SrcFile)
    (st st' : SyncState) (h : processFile b k sp f st = Except.ok st')
    (hd : DualSink st) : DualSink st' := by
  unfold processFile at h
  repeat' split at h
  all_goals
    first
      | exact handleErr_ok_dual _ _ _ _ _ h hd
      | exact handleErr_ok_dual _ _ _ _ _ h (dual_ext _ _ _ hd)
      | (simp only [Except.ok.injEq] at h
         subst h
         exact dual_push _ _ _ _ _ _ _ _ hd)

theorem processFiles_ok_dual (b : Bool) (src rel : String)
    (fs : List SrcFile) (st st' : SyncState)
    (h : processFiles b src rel fs st = Except.ok st') (hd : DualSink st) :
    DualSink st' := by
  induction fs generalizing st with
  | nil =>
      simp only [processFiles, Except.ok.injEq] at h
      subst h
      exact hd
  | cons f rest ih =>
      unfold processFiles at h
      cases hpf : processFile b (joinRel rel f.name)
          (srcPath src rel f.name) f st with
      | error st1 => rw [hpf] at h; simp at h
      | ok st1 =>
          rw [hpf] at h
          exact ih _ h (processFile_ok_dual _ _ _ _ _ _ hpf hd)

theorem processDirs_ok_dual (b : Bool) (src : String) (dirs : List SrcDir)
    (st st' : SyncState) (h : processDirs b src dirs st = Except.ok st')
    (hd : DualSink st) : DualSink st' := by
  induction dirs generalizing st with
  | nil =>
      simp only [processDirs, Except.ok.injEq] at h
      subst h
      exact hd
  | cons d rest ih =>
      unfold processDirs at h
      cases hpd : processDir b src d st with
      | error st1 => rw [hpd] at h; simp at h
      | ok st1 =>
          rw [hpd] at h
          refine ih _ h ?_
          unfold processDir at hpd
          cases hm : d.mkdirRaises <;> rw [hm] at hpd
          · exact processFiles_ok_dual _ _ _ _ _ _ hpd
              (fun md hmd => hd md hmd)
          · simp at hpd

theorem processFiles_ok_counts (b : Bool) (src rel : String)
    (fs : List SrcFile) (st st' : SyncState)
    (h : processFiles b src rel fs st = Except.ok st') :
    st'.copied + st'.skipped + st'.errors =
      st.copied + st.skipped + st.errors + fs.length ∧
      st'.total = st.total := by
  induction fs generalizing st with
  | nil =>
      simp only [processFiles, Except.ok.injEq] at h
      subst h
      simp
  | cons f rest ih =>
      unfold processFiles at h
      cases hpf : processFile b (joinRel rel f.name)
          (srcPath src rel f.name) f st with
      | error st1 => rw [hpf] at h; simp at h
      | ok st1 =>
          rw [hpf] at h
          rcases processFile_ok_counts _ _ _ _ _ _ hpf with ⟨a1, a2⟩
          rcases ih _ h with ⟨b1, b2⟩
          simp only [List.length_cons]
          omega

theorem processDir_ok_counts (b : Bool) (src : String) (d : SrcDir)
    (st st' : SyncState) (h : processDir b src d st = Except.ok st') :
    st'.copied + st'.skipped + st'.errors =
      st.copied + st.skipped + st.errors + d.files.length ∧
      st'.total = st.total + d.files.length := by
  unfold processDir at h
  cases hm : d.mkdirRaises <;> rw [hm] at h
  · rcases processFiles_ok_counts _ _ _ _ _ _ h with ⟨a1, a2⟩
    simp at a1 a2
    omega
  · simp at h

theorem processDirs_ok_counts (b : Bool) (src : String)
    (dirs : List SrcDir) (st st' : SyncState)
    (h : processDirs b src dirs st = Except.ok st') :
    st'.copied + st'.skipped + st'.errors =
      st.copied + st.skipped + st.errors + countFiles dirs ∧
      st'.total = st.total + countFiles dirs := by
  induction dirs generalizing st with
  | nil =>
      simp only [processDirs, Except.ok.injEq] at h
      subst h
      simp [countFiles]
  | cons d rest ih =>
      unfold processDirs at h
      cases hpd : processDir b src d st with
      | error st1 => rw [hpd] at h; simp at h
      | ok st1 =>
          rw [hpd] at h
          rcases processDir_ok_counts _ _ _ _ _ hpd with ⟨a1, a2⟩
          rcases ih _ h with ⟨b1, b2⟩
          simp only [countFiles]
          omega

theorem FS.lookup_write_ne (fs : FS) (k q : String) (g : DiskFile)
    (hq : q ≠ k) : FS.lookup (FS.write fs k g) q = FS.lookup fs q := by
  simp [FS.write, FS.lookup, Ne.symm hq]

/-- A per-file step at a fresh destination path counts a COPY_NEW or an
ERROR decision, never touches `skipped`, and writes at most its own
destination path. -/
theorem processFile_new_shape (b : Bool) (k sp : String) (f : SrcFile)
    (st st' : SyncState) (hex : FS.lookup st.fs k = none)
    (h : processFile b k sp f st = Except.ok st') :
    st'.skipped = st.skipped ∧
    (∀ md ∈ st'.decisions, md ∈ st.decisions ∨ md.2 = Decision.copyNew ∨
        md.2 = Decision.error) ∧
    (∀ q, q ≠ k → FS.lookup st'.fs q = FS.lookup st.fs q) := by
  simp only [processFile, hex] at h
  repeat' split at h
  all_goals
    (try (have he := handleErr_ok_eq _ _ _ _ _ h; subst he)
     try (simp only [Except.ok.injEq] at h; subst h)
     refine ⟨rfl, ?_, ?_⟩
     · intro md hmd
       simp only [List.mem_append, List.mem_singleton] at hmd
       rcases hmd with hmd | hmd
       · exact Or.inl hmd
       · subst hmd
         first
           | exact Or.inr (Or.inl rfl)
           | exact Or.inr (Or.inr rfl)
     · intro q hq
       first
         | rfl
         | exact FS.lookup_write_ne _ _ _ _ hq)

theorem processFiles_new_shape (b : Bool) (src rel : String)
    (fs : List SrcFile) (st st' : SyncState)
    (h : processFiles b src rel fs st = Except.ok st')
    (hnd : (fileKeys rel fs).Nodup)
    (hes : ∀ q ∈ fileKeys rel fs, FS.lookup st.fs q = none) :
    st'.skipped = st.skipped ∧
    (∀ md ∈ st'.decisions, md ∈ st.decisions ∨ md.2 = Decision.copyNew ∨
        md.2 = Decision.error) ∧
    (∀ q, q ∉ fileKeys rel fs → FS.lookup st'.fs q = FS.lookup st.fs q) := by
  induction fs generalizing st with
  | nil =>
      simp only [processFiles, Except.ok.injEq] at h
      subst h
      exact ⟨rfl, fun md hmd => Or.inl hmd, fun q _ => rfl⟩
  | cons f rest ih =>
      unfold processFiles at h
      cases hpf : processFile b (joinRel rel f.name)
          (srcPath src rel f.name) f st with
      | error st1 => rw [hpf] at h; simp at h
      | ok st1 =>
          rw [hpf] at h
          have hkey : fileKeys rel (f :: rest) =
              joinRel rel f.name :: fileKeys rel rest := by
            simp [fileKeys]
          rw [hkey] at hnd hes
          have hk0 : joinRel rel f.name ∉ fileKeys rel rest :=
            (List.nodup_cons.mp hnd).1
          rcases processFile_new_shape b (joinRel rel f.name)
              (srcPath src rel f.name) f st st1
              (hes _ (by simp)) hpf with ⟨s1, d1, f1⟩
          rcases ih st1 h (List.nodup_cons.mp hnd).2 (fun q hq => by
              rw [f1 q (fun he => hk0 (he ▸ hq))]
              exact hes q (by simp [hq])) with ⟨s2, d2, f2⟩
          refine ⟨by rw [s2, s1], ?_, ?_⟩
          · intro md hmd
            rcases d2 md hmd with hmd1 | h2
            · rcases d1 md hmd1 with hmd2 | h3
              · exact Or.inl hmd2
              · exact Or.inr h3
            · exact Or.inr h2
          · intro q hq
            rw [hkey] at hq
            have hq1 : q ≠ joinRel rel f.name := fun he => hq (by simp [he])
            have hq2 : q ∉ fileKeys rel rest := fun hx => hq (by simp [hx])
            rw [f2 q hq2, f1 q hq1]

theorem processDirs_new_shape (b : Bool) (src : String)
    (dirs : List SrcDir) (st st' : SyncState)
    (h : processDirs b src dirs st = Except.ok st')
    (hnd : (allKeys dirs).Nodup)
    (hes : ∀ q ∈ allKeys dirs, FS.lookup st.fs q = none) :
    st'.skipped = st.skipped ∧
    (∀ md ∈ st'.decisions, md ∈ st.decisions ∨ md.2 = Decision.copyNew ∨
        md.2 = Decision.error) ∧
    (∀ q, q ∉ allKeys dirs → FS.lookup st'.fs q = FS.lookup st.fs q) := by
  induction dirs generalizing st with
  | nil =>
      simp only [processDirs, Except.ok.injEq] at h
      subst h
      exact ⟨rfl, fun md hmd => Or.inl hmd, fun q _ => rfl⟩
  | cons d rest ih =>
      unfold processDirs at h
      cases hpd : processDir b src d st with
      | error st1 => rw [hpd] at h; simp at h
      | ok st1 =>
          rw [hpd] at h
          rw [allKeys] at hnd hes
          rcases List.nodup_append.mp hnd with ⟨h1, h2, h3⟩
          have hpd' : processFiles b src d.relPath d.files
              { st with total := st.total + d.files.length } =
              Except.ok st1 := by
            unfold processDir at hpd
            cases hm : d.mkdirRaises <;> rw [hm] at hpd
            · exact hpd
            · simp at hpd
          rcases processFiles_new_shape b src d.relPath d.files _ st1 hpd'
              h1 (fun q hq => hes q (by simp [hq])) with ⟨s1, d1, f1⟩
          rcases ih st1 h h2 (fun q hq => by
              rw [f1 q (fun hq2 => h3 hq2 hq)]
              exact hes q (by simp [hq])) with ⟨s2, d2, f2⟩
          refine ⟨by rw [s2]; exact s1, ?_, ?_⟩
          · intro md hmd
            rcases d2 md hmd with hmd1 | hx
            · rcases d1 md hmd1 with hmd2 | hx
              · exact Or.inl hmd2
              · exact Or.inr hx
            · exact Or.inr hx
          · intro q hq
            have hq1 : q ∉ fileKeys d.relPath d.files :=
              fun hx => hq (by simp [allKeys, hx])
            have hq2 : q ∉ allKeys rest :=
              fun hx => hq (by simp [allKeys, hx])
            rw [f2 q hq2]
            exact f1 q hq1

theorem processDirs_append (b : Bool) (src : String)
    (pre rest : List SrcDir) (st st1 : SyncState)
    (h : processDirs b src pre st = Except.ok st1) :
    processDirs b src (pre ++ rest) st = processDirs b src rest st1 := by
  induction pre generalizing st with
  | nil =>
      simp only [processDirs, Except.ok.injEq] at h
      subst h
      simp
  | cons d pre' ih =>
      unfold processDirs at h
      cases hpd : processDir b src d st with
      | error st2 => rw [hpd] at h; simp at h
      | ok st2 =>
          rw [hpd] at h
          rw [List.cons_append]
          simp only [processDirs]
          rw [hpd]
          exact ih _ h

/-- A completed `runMain` is exactly a completed walk of `backup_files`
against the fresh snapshot holding only the just-written `backup.log`. -/
theorem runMain_completed (s : Setup) (src : String) (logFile : DiskFile)
    (dirs : List SrcDir) (st : SyncState)
    (h : runMain s src logFile dirs = MainOutcome.completed st) :
    backup_files src s.full dirs [("backup.log", logFile)] =
      Except.ok st := by
  unfold runMain at h
  repeat' split at h
  all_goals simp at h
  subst h
  rename_i heq
  exact heq

/- ------------------------------------------------------------------ -/
/- Claim theorems                                                      -/
/- ------------------------------------------------------------------ -/

/-- C1: In FULL mode, for a source file whose destination path is already
occupied, the engine compares the two files byte for byte (no exception
being raised for this file): byte-identical content gives decision
SKIP_IDENTICAL and leaves the destination filesystem — content and mtime —
untouched; differing content gives decision COPY_MODIFIED and overwrites
the destination, which afterwards holds exactly the source's bytes (and
its mtime, via `shutil.copy2`). -/
theorem c1_full_byte_comparison (destKey sp : String) (f : SrcFile)
    (df : DiskFile) (st : SyncState)
    (hex : FS.lookup st.fs destKey = some df)
    (hc : f.cmpRaises = none) (hcp : f.copyRaises = none)
    (hr : f.recRaises = none) :
    processFile true destKey sp f st = Except.ok
      (if f.content = df.content then
        { st with
          console := st.console ++ [msgSkipIdentical sp]
          log := st.log ++ [msgSkipIdentical sp]
          decisions :=
            st.decisions ++ [(msgSkipIdentical sp, Decision.skipIdentical)]
          skipped := st.skipped + 1 }
      else
        { st with
          fs := FS.write st.fs destKey ⟨f.content, f.mtime⟩
          console := st.console ++ [msgCopyModified sp]
          log := st.log ++ [msgCopyModified sp]
          decisions :=
            st.decisions ++ [(msgCopyModified sp, Decision.copyModified)]
          copied := st.copied + 1 }) ∧
    FS.lookup (FS.write st.fs destKey ⟨f.content, f.mtime⟩) destKey =
      some ⟨f.content, f.mtime⟩ := by
  constructor
  · by_cases hcd : f.content = df.content
    · simp [processFile, hex, hc, hcd, hr]
    · simp [processFile, hex, hc, hcd, hcp, hr]
  · simp [FS.write, FS.lookup]

/-- Concrete instance of `c1_full_byte_comparison`: destination holds bytes
`[1, 2]` at `a.txt`, the source file holds `[9]`, so the run overwrites. -/
theorem c1_witness :
    processFile true "a.txt" "src/a.txt"
        { name := "a.txt", content := [9], mtime := 7 }
        { fs := [("a.txt", ⟨[1, 2], 3⟩)] } = Except.ok
      (if ([9] : Bytes) = [1, 2] then
        { fs := [("a.txt", ⟨[1, 2], 3⟩)]
          console := [msgSkipIdentical "src/a.txt"]
          log := [msgSkipIdentical "src/a.txt"]
          decisions := [(msgSkipIdentical "src/a.txt", Decision.skipIdentical)]
          skipped := 1 }
      else
        { fs := FS.write [("a.txt", ⟨[1, 2], 3⟩)] "a.txt" ⟨[9], 7⟩
          console := [msgCopyModified "src/a.txt"]
          log := [msgCopyModified "src/a.txt"]
          decisions := [(msgCopyModified "src/a.txt", Decision.copyModified)]
          copied := 1 }) ∧
    FS.lookup (FS.write [("a.txt", ⟨[1, 2], 3⟩)] "a.txt" ⟨[9], 7⟩) "a.txt" =
      some ⟨[9], 7⟩ :=
  c1_full_byte_comparison "a.txt" "src/a.txt"
    { name := "a.txt", content := [9], mtime := 7 } ⟨[1, 2], 3⟩
    { fs := [("a.txt", ⟨[1, 2], 3⟩)] } rfl rfl rfl rfl

/-- C2: In INCREMENTAL mode, for a source file whose destination path is
already occupied, the engine compares the last-modified timestamps (no
exception being raised for this file): a strictly newer source gives
decision COPY_NEWER and overwrites the destination; a source mtime less
than or equal to the destination mtime — ties included — gives decision
SKIP_UP_TO_DATE and performs no write. -/
theorem c2_incremental_mtime_comparison (destKey sp : String) (f : SrcFile)
    (df : DiskFile) (st : SyncState)
    (hex : FS.lookup st.fs destKey = some df)
    (hm : f.mtimeRaises = none) (hcp : f.copyRaises = none)
    (hr : f.recRaises = none) :
    processFile false destKey sp f st = Except.ok
      (if df.mtime < f.mtime then
        { st with
          fs := FS.write st.fs destKey ⟨f.content, f.mtime⟩
          console := st.console ++ [msgCopyNewer sp]
          log := st.log ++ [msgCopyNewer sp]
          decisions := st.decisions ++ [(msgCopyNewer sp, Decision.copyNewer)]
          copied := st.copied + 1 }
      else
        { st with
          console := st.console ++ [msgSkipUpToDate sp]
          log := st.log ++ [msgSkipUpToDate sp]
          decisions :=
            st.decisions ++ [(msgSkipUpToDate sp, Decision.skipUpToDate)]
          skipped := st.skipped + 1 }) := by
  by_cases hlt : df.mtime < f.mtime
  · simp [processFile, hex, hm, hlt, hcp, hr]
  · simp [processFile, hex, hm, hlt, hr]

/-- Concrete instance of `c2_incremental_mtime_comparison`: equal mtimes
(source 3, destination 3), so the tie is treated as not newer and the file
is skipped. -/
theorem c2_witness :
    processFile false "a.txt" "src/a.txt"
        { name := "a.txt", content := [9], mtime := 3 }
        { fs := [("a.txt", ⟨[1, 2], 3⟩)] } = Except.ok
      (if (3 : Int) < 3 then
        { fs := FS.write [("a.txt", ⟨[1, 2], 3⟩)] "a.txt" ⟨[9], 3⟩
          console := [msgCopyNewer "src/a.txt"]
          log := [msgCopyNewer "src/a.txt"]
          decisions := [(msgCopyNewer "src/a.txt", Decision.copyNewer)]
          copied := 1 }
      else
        { fs := [("a.txt", ⟨[1, 2], 3⟩)]
          console := [msgSkipUpToDate "src/a.txt"]
          log := [msgSkipUpToDate "src/a.txt"]
          decisions := [(msgSkipUpToDate "src/a.txt", Decision.skipUpToDate)]
          skipped := 1 }) :=
  c2_incremental_mtime_comparison "a.txt" "src/a.txt"
    { name := "a.txt", content := [9], mtime := 3 } ⟨[1, 2], 3⟩
    { fs := [("a.txt", ⟨[1, 2], 3⟩)] } rfl rfl rfl rfl

/-- C3: In either mode, for a source file with no file yet at its
destination path (and no exception raised for it), the decision is
COPY_NEW, exactly one copy is performed, and afterwards the destination
path holds exactly the source's bytes and mtime. -/
theorem c3_copy_new (b : Bool) (destKey sp : String) (f : SrcFile)
    (st : SyncState)
    (hex : FS.lookup st.fs destKey = none)
    (hcp : f.copyRaises = none) (hr : f.recRaises = none) :
    processFile b destKey sp f st = Except.ok
      { st with
        fs := FS.write st.fs destKey ⟨f.content, f.mtime⟩
        console := st.console ++ [msgCopyNew sp]
        log := st.log ++ [msgCopyNew sp]
        decisions := st.decisions ++ [(msgCopyNew sp, Decision.copyNew)]
        copied := st.copied + 1 } ∧
    FS.lookup (FS.write st.fs destKey ⟨f.content, f.mtime⟩) destKey =
      some ⟨f.content, f.mtime⟩ := by
  constructor
  · simp [processFile, hex, hcp, hr]
  · simp [FS.write, FS.lookup]

/-- Concrete instance of `c3_copy_new`: empty destination, FULL mode, one
new file copied byte-identically. -/
theorem c3_witness :
    processFile true "b.txt" "src/b.txt"
        { name := "b.txt", content := [4, 5], mtime := 11 }
        { fs := [] } = Except.ok
      { fs := FS.write [] "b.txt" ⟨[4, 5], 11⟩
        console := [msgCopyNew "src/b.txt"]
        log := [msgCopyNew "src/b.txt"]
        decisions := [(msgCopyNew "src/b.txt", Decision.copyNew)]
        copied := 1 } ∧
    FS.lookup (FS.write [] "b.txt" ⟨[4, 5], 11⟩) "b.txt" =
      some ⟨[4, 5], 11⟩ :=
  c3_copy_new true "b.txt" "src/b.txt"
    { name := "b.txt", content := [4, 5], mtime := 11 } { fs := [] }
    rfl rfl rfl

/-- C4: For every run of the engine that completes, the returned counters
satisfy `copied + skipped + errors = total`, `total` being the number of
files yielded by the traversal of the source tree (each processed file
increments exactly one of the three outcome counters, by
`processFile_ok_counts`). -/
theorem c4_summary_invariant (b : Bool) (src : String) (dirs : List SrcDir)
    (fs0 : FS) (st : SyncState)
    (h : backup_files src b dirs fs0 = Except.ok st) :
    st.copied + st.skipped + st.errors = st.total ∧
      st.total = countFiles dirs := by
  unfold backup_files at h
  rcases processDirs_ok_counts _ _ _ _ _ h with ⟨a1, a2⟩
  simp at a1 a2
  omega

/-- Concrete instance of `c4_summary_invariant`: a run with one copied file
and one per-file error has `copied + skipped + errors = total = 2`. -/
theorem c4_witness :
    w4st.copied + w4st.skipped + w4st.errors = w4st.total ∧
      w4st.total = countFiles w4dirs :=
  c4_summary_invariant true "s" w4dirs [] w4st rfl

/-- C5 counterexample: `w5file2` suffers a copy exception whose handler
log write (line 89) also fails; the second exception propagates out of
`backup_files`, aborting the whole walk with no summary, no counted
ERROR decision (`decisions = []`, `errors = 0`), and the remaining clean
file never processed — refuting the claim that a single file's exception
is always caught per-file and never aborts the run. -/
theorem c5_counterexample :
    backup_files "s" false w5dirs2 [] = Except.error
      { fs := []
        console := [msgCopyNew "s/x.txt", msgError "s/x.txt" "denied"]
        log := []
        decisions := []
        copied := 0
        skipped := 0
        errors := 0
        total := 2 } := rfl

/-- C5 (amended): an exception raised by any call of the `try` block for
a single file (`tryFault` names the first failing call in every branch)
is caught at file granularity provided the handler's own log write
(line 89) succeeds: the file then yields exactly one ERROR decision,
counted in `errors` and in no other counter (first conjunct), the
per-file step returns normally (second conjunct), and a walk whose
directory creations and handler log writes succeed always returns a
summary, whatever else fails (fourth conjunct).  If the handler's log
write also fails, the exception propagates and aborts the run (third
conjunct). -/
theorem c5_error_containment_amended (b : Bool) (k sp e : String)
    (f : SrcFile) (st st' : SyncState)
    (hf : tryFault b k f st.fs = some e) :
    (processFile b k sp f st = Except.ok st' →
        st'.errors = st.errors + 1 ∧ st'.copied = st.copied ∧
        st'.skipped = st.skipped ∧
        st'.decisions = st.decisions ++ [(msgError sp e, Decision.error)]) ∧
    (f.errRaises = none → resultOk (processFile b k sp f st) = true) ∧
    (∀ e2, f.errRaises = some e2 →
        resultOk (processFile b k sp f st) = false) ∧
    (∀ (src : String) (dirs : List SrcDir) (fs0 : FS),
        (∀ d ∈ dirs, d.mkdirRaises = none) →
        (∀ d ∈ dirs, ∀ g ∈ d.files, g.errRaises = none) →
        resultOk (backup_files src b dirs fs0) = true) := by
  refine ⟨?_, ?_, ?_, ?_⟩
  · intro h
    exact processFile_fault_counted b k sp e f st st' hf h
  · intro her
    rcases processFile_errNone_ok b k sp f st her with ⟨st2, h2⟩
    simp [h2, resultOk]
  · intro e2 her2
    exact processFile_fault_aborts b k sp e e2 f st hf her2
  · intro src dirs fs0 hm he
    rcases processDirs_errNone_ok b src dirs { fs := fs0 } hm he
      with ⟨st2, h2⟩
    simp [backup_files, h2, resultOk]

/-- Concrete instance of `c5_error_containment_amended`: `w5file`'s
failing copy is downgraded to one counted ERROR, its step returns
normally, `w5file2`'s double failure propagates, and the clean-handler
run `w5dirs` returns a summary. -/
theorem c5_amended_witness :
    (w5st.errors = 0 + 1 ∧ w5st.copied = 0 ∧ w5st.skipped = 0 ∧
      w5st.decisions =
        [] ++ [(msgError "s/x.txt" "denied", Decision.error)]) ∧
    resultOk (processFile false "x.txt" "s/x.txt" w5file { fs := [] }) =
      true ∧
    resultOk (processFile false "x.txt" "s/x.txt" w5file2 { fs := [] }) =
      false ∧
    resultOk (backup_files "s" false w5dirs []) = true := by
  have h1 := c5_error_containment_amended false "x.txt" "s/x.txt" "denied"
    w5file { fs := [] } w5st rfl
  have h2 := c5_error_containment_amended false "x.txt" "s/x.txt" "denied"
    w5file2 { fs := [] } w5st rfl
  exact ⟨h1.1 rfl, h1.2.1 rfl, h2.2.2.1 "disk full" rfl,
    h1.2.2.2 "s" w5dirs [] (by decide) (by decide)⟩

/-- C8: Every per-file decision record counted during a completed run is
emitted to both sinks: it appears in the console output and in the audit
log — also in runs where some files fail (their ERROR record is printed
at line 88 and written at line 89). -/
theorem c8_dual_sink (b : Bool) (src : String) (dirs : List SrcDir)
    (fs0 : FS) (st : SyncState)
    (h : backup_files src b dirs fs0 = Except.ok st) : DualSink st := by
  unfold backup_files at h
  exact processDirs_ok_dual _ _ _ _ _ h (by intro md hmd; simp at hmd)

/-- Concrete instance of `c8_dual_sink` on the mixed run `w4dirs`, whose
first file fails: both its ERROR record and the second file's COPY record
are in console and log. -/
theorem c8_witness : DualSink w4st :=
  c8_dual_sink true "s" w4dirs [] w4st rfl

/-- C9 counterexample: the snapshot `main` passes to the walk is not
empty — it already holds the `backup.log` the run just created (lines
116-123) — so a source tree with a root-level file named `backup.log`
(disjoint from the snapshot, distinct destination paths) reaches the
comparison branches from the command-line entry point: this INCREMENTAL
run ends completed with decision SKIP_UP_TO_DATE and `skipped = 1`,
refuting "every decision is COPY_NEW or ERROR" and "`skipped` is 0". -/
theorem c9_counterexample :
    runMain w9setup "s" wLog w9dirs = MainOutcome.completed w9st ∧
    w9st.skipped = 1 ∧ onlyNewOrError w9st = false :=
  ⟨rfl, rfl, rfl⟩

/-- C9 (amended): `main` hands `backup_files` a freshly created snapshot
containing only the just-written `backup.log`, so in every end-to-end
run over a source tree whose destination paths are distinct (as a real
`os.walk` guarantees) and which contains no root-level file named
`backup.log`, no destination file exists when a source file is examined:
every counted decision is COPY_NEW or ERROR, the `skipped` counter is 0
at run end, and the SKIP_IDENTICAL / COPY_MODIFIED / COPY_NEWER /
SKIP_UP_TO_DATE branches are unreachable from the command-line entry
point except through such a `backup.log` collision. -/
theorem c9_amended_fresh_snapshot (s : Setup) (src : String)
    (logFile : DiskFile) (dirs : List SrcDir) (st : SyncState)
    (hnd : (allKeys dirs).Nodup)
    (hno : "backup.log" ∉ allKeys dirs)
    (h : runMain s src logFile dirs = MainOutcome.completed st) :
    st.skipped = 0 ∧ onlyNewOrError st = true := by
  have hb := runMain_completed s src logFile dirs st h
  unfold backup_files at hb
  rcases processDirs_new_shape s.full src dirs
      { fs := [("backup.log", logFile)] } st hb hnd
      (fun q hq => by
        have hne : "backup.log" ≠ q := fun he => hno (he ▸ hq)
        simp [FS.lookup, hne]) with ⟨hs, hd, _⟩
  refine ⟨hs, ?_⟩
  simp only [onlyNewOrError, List.all_eq_true, decide_eq_true_eq]
  intro md hmd
  rcases hd md hmd with h0 | h2
  · simp at h0
  · exact h2

/-- Concrete instance of `c9_amended_fresh_snapshot`: the end-to-end run
over `w4dirs` (one failing file, one clean file, no `backup.log` in the
source) skips nothing and decides only COPY_NEW / ERROR. -/
theorem c9_amended_witness :
    w9ast.skipped = 0 ∧ onlyNewOrError w9ast = true :=
  c9_amended_fresh_snapshot wSetup "s" wLog w4dirs w9ast
    (by decide) (by decide) rfl

/-- C6 counterexample: with a missing source directory the run is a setup
failure, yet the process exit status is 0 — `main` handles every setup
failure with a plain `return` and never calls `sys.exit`, so the claim
that the process exits non-zero exactly on setup failures is false. -/
theorem c6_counterexample :
    (runMain wBadSourceSetup "s" wLog []).isSetupFail = true ∧
    exitStatus (runMain wBadSourceSetup "s" wLog []) = 0 :=
  ⟨rfl, rfl⟩

/-- C6 (amended): the process exits with status 0 in every case — setup
failures included.  A setup failure still ends the run early (the outcome
is one of the four `setupFail` results exactly when a setup check fails),
but it is signalled only by the printed error message, never by the exit
status. -/
theorem c6_exit_status_always_zero (s : Setup) (src : String)
    (logFile : DiskFile) (dirs : List SrcDir) :
    exitStatus (runMain s src logFile dirs) = 0 ∧
    ((runMain s src logFile dirs).isSetupFail = true ↔
      s.sourceIsDir = false ∨ s.destIsDir = false ∨ s.snapshotOk = false ∨
        s.logOpenOk = false) := by
  refine ⟨rfl, ?_⟩
  obtain ⟨s1, s2, s3, s4, s5⟩ := s
  cases s1 <;> cases s2 <;> cases s3 <;> cases s4 <;>
    simp [runMain, MainOutcome.isSetupFail]
  cases hb : backup_files src s5 dirs [("backup.log", logFile)] <;>
    simp [hb, MainOutcome.isSetupFail]

/-- Concrete instance of `c6_exit_status_always_zero` at the bad-source
setup. -/
theorem c6_witness :
    exitStatus (runMain wBadSourceSetup "s" wLog []) = 0 ∧
    ((runMain wBadSourceSetup "s" wLog []).isSetupFail = true ↔
      wBadSourceSetup.sourceIsDir = false ∨
        wBadSourceSetup.destIsDir = false ∨
        wBadSourceSetup.snapshotOk = false ∨
        wBadSourceSetup.logOpenOk = false) :=
  c6_exit_status_always_zero wBadSourceSetup "s" wLog []

/-- C7 counterexample: in this run the write of a per-file audit record
fails (`w7file.recRaises`), yet the run is not aborted and the failure is
not reported distinctly: it is downgraded to an ERROR decision counted in
the summary (`errors = 1`), refuting the claim that any failure to write
the audit log is fatal to the whole run. -/
theorem c7_counterexample :
    backup_files "s" false w7dirs [] = Except.ok w7st ∧
    w7st.errors = 1 ∧ w7st.copied = 0 :=
  ⟨rfl, rfl, rfl⟩

/-- C7 (amended): failure to open the audit log file (or write its
header) is fatal — `main` stops before backing up a single file — and is
reported as its own setup failure, distinct from per-file errors.  A
failure writing a per-file record during the walk, however, is caught by
the per-file handler and downgraded to an ERROR decision counted in the
summary (second conjunct, shown for a freshly copied file); only when the
handler's own log write also fails does the exception abort the walk
(third conjunct). -/
theorem c7_log_failure_amended (s : Setup) (src : String)
    (logFile : DiskFile) (dirs : List SrcDir) (b : Bool)
    (k sp e e2 : String) (f : SrcFile) (st : SyncState) :
    (s.sourceIsDir = true → s.destIsDir = true → s.snapshotOk = true →
      s.logOpenOk = false →
      runMain s src logFile dirs = MainOutcome.setupFailLogOpen) ∧
    (FS.lookup st.fs k = none → f.copyRaises = none →
      f.recRaises = some e → f.errRaises = none →
      processFile b k sp f st = Except.ok
        { st with
          fs := FS.write st.fs k ⟨f.content, f.mtime⟩
          console := st.console ++ [msgCopyNew sp, msgError sp e]
          log := st.log ++ [msgError sp e]
          decisions := st.decisions ++ [(msgError sp e, Decision.error)]
          errors := st.errors + 1 }) ∧
    (FS.lookup st.fs k = none → f.copyRaises = none →
      f.recRaises = some e → f.errRaises = some e2 →
      processFile b k sp f st = Except.error
        { st with
          fs := FS.write st.fs k ⟨f.content, f.mtime⟩
          console := st.console ++ [msgCopyNew sp, msgError sp e] }) := by
  refine ⟨?_, ?_, ?_⟩
  · intro h1 h2 h3 h4
    simp [runMain, h1, h2, h3, h4]
  · intro hex hcp hr her
    simp only [processFile, hex, hcp, hr]
    rw [handleErr_errNone_eq _ _ _ _ her]
    simp
  · intro hex hcp hr her2
    simp only [processFile, hex, hcp, hr]
    simp [handleErr, her2]

/-- Concrete instance of `c7_log_failure_amended`: a bad-log setup aborts
before any backup; `w7file`'s failed record write is downgraded to a
counted ERROR; `w7file2`'s double log failure propagates. -/
theorem c7_witness :
    runMain wBadLogSetup "s" wLog [] = MainOutcome.setupFailLogOpen ∧
    processFile false "a.txt" "s/a.txt" w7file { fs := [] } = Except.ok
      { fs := FS.write [] "a.txt" ⟨[1], 0⟩
        console := [msgCopyNew "s/a.txt", msgError "s/a.txt" "disk full"]
        log := [msgError "s/a.txt" "disk full"]
        decisions := [(msgError "s/a.txt" "disk full", Decision.error)]
        errors := 1 } ∧
    processFile false "a.txt" "s/a.txt" w7file2 { fs := [] } = Except.error
      { fs := FS.write [] "a.txt" ⟨[1], 0⟩
        console := [msgCopyNew "s/a.txt", msgError "s/a.txt" "disk full"] } := by
  have h1 := c7_log_failure_amended wBadLogSetup "s" wLog
    ([] : List SrcDir) false "a.txt" "s/a.txt" "disk full" "disk full"
    w7file { fs := [] }
  have h2 := c7_log_failure_amended wBadLogSetup "s" wLog
    ([] : List SrcDir) false "a.txt" "s/a.txt" "disk full" "disk full"
    w7file2 { fs := [] }
  exact ⟨h1.1 rfl rfl rfl rfl, h1.2.1 rfl rfl rfl rfl,
    h2.2.2 rfl rfl rfl rfl⟩

/-- C10: the `os.makedirs` call for a destination subdirectory (line 41)
sits outside the per-file `try`: when it raises mid-walk the exception
propagates out of the engine — the remaining walk is aborted, no summary
is returned, and the failing directory's files receive no ERROR decision
(the aborted state carries exactly the decisions of the directories
already walked, although `total` already counted the failing directory's
files) — and `main` catches it only in the `except IOError` handler
around the log file, so the outcome is an aborted run, not one of the
setup failures checked before the run. -/
theorem c10_mkdir_failure_aborts_walk (s : Setup) (src : String)
    (logFile : DiskFile) (pre post : List SrcDir) (d : SrcDir)
    (e : String) (st1 : SyncState)
    (hs1 : s.sourceIsDir = true) (hs2 : s.destIsDir = true)
    (hs3 : s.snapshotOk = true) (hs4 : s.logOpenOk = true)
    (hm : d.mkdirRaises = some e)
    (hpre : processDirs s.full src pre
        { fs := [("backup.log", logFile)] } = Except.ok st1) :
    backup_files src s.full (pre ++ d :: post) [("backup.log", logFile)] =
      Except.error { st1 with total := st1.total + d.files.length } ∧
    runMain s src logFile (pre ++ d :: post) =
      MainOutcome.abortedRun
        { st1 with total := st1.total + d.files.length } ∧
    (runMain s src logFile (pre ++ d :: post)).isSetupFail = false := by
  have hb : backup_files src s.full (pre ++ d :: post)
      [("backup.log", logFile)] =
      Except.error { st1 with total := st1.total + d.files.length } := by
    unfold backup_files
    rw [processDirs_append s.full src pre (d :: post)
      { fs := [("backup.log", logFile)] } st1 hpre]
    simp [processDirs, processDir, hm]
  have hr : runMain s src logFile (pre ++ d :: post) =
      MainOutcome.abortedRun
        { st1 with total := st1.total + d.files.length } := by
    simp [runMain, hs1, hs2, hs3, hs4, hb]
  exact ⟨hb, hr, by rw [hr]; rfl⟩

/-- Concrete instance of `c10_mkdir_failure_aborts_walk`: a one-directory
walk whose destination mkdir fails aborts with no decisions and
`total = 1`. -/
theorem c10_witness :
    backup_files "s" wSetup.full ([] ++ w10dir :: [])
      [("backup.log", wLog)] =
      Except.error { fs := [("backup.log", wLog)], total := 1 } ∧
    runMain wSetup "s" wLog ([] ++ w10dir :: []) =
      MainOutcome.abortedRun { fs := [("backup.log", wLog)], total := 1 } ∧
    (runMain wSetup "s" wLog ([] ++ w10dir :: [])).isSetupFail = false :=
  c10_mkdir_failure_aborts_walk wSetup "s" wLog [] [] w10dir "denied"
    { fs := [("backup.log", wLog)] } rfl rfl rfl rfl rfl rfl

end BackupScript
